import Mathlib

/-!
Verification of the docgen Markdown extension pipeline
(`src/markdown/parser.rs`, `src/markdown/extension.rs`,
`src/markdown/extensions/*.rs`).

The pipeline consumes a pulldown-cmark event stream.  pulldown-cmark is an
external dependency ("Event Stream Source: given, not reimplemented"), so the
embedding takes the event list itself as input.  Likewise the following
external crates are modelled as parameters or, where the spec fixes their
contract, by definitions whose doc comment starts with "Modelled from the
spec:":

 * `url::Url::parse` (classification outcomes only) — a parameter
   `String → UrlOutcome`;
 * `syntect` syntax lookup and highlighting — parameters in `Externals`;
 * the `emojis` shortcode table — a parameter `String → Option String`;
 * `slug::slugify` — modelled from the spec (see `slugify`);
 * the `ammonia` sanitizer — modelled from the spec over an HTML token
   representation (see `toHtml`).

Rust panics (`unwrap` on `None`) are modelled by returning `none` from the
embedded function: a `none` result of the pipeline means the Rust code
panics on that input.
-/

/-- pulldown-cmark `CodeBlockKind`. -/
inductive CodeBlockKind where
  | indented
  | fenced (info : String)
deriving DecidableEq, Repr

/-- pulldown-cmark `LinkType`. -/
inductive LinkType where
  | inline
  | reference
  | referenceUnknown
  | collapsed
  | collapsedUnknown
  | shortcut
  | shortcutUnknown
  | autolink
  | email
deriving DecidableEq, Repr

/-- pulldown-cmark `Tag` (the constructors used by the pipeline). -/
inductive MdTag where
  | paragraph
  | heading (level : Nat)
  | blockQuote
  | codeBlock (kind : CodeBlockKind)
  | list (firstNumber : Option Nat)
  | item
  | emphasis
  | strong
  | strikethrough
  | link (lt : LinkType) (url : String) (title : String)
  | image (lt : LinkType) (url : String) (title : String)
deriving DecidableEq, Repr

/-- pulldown-cmark `Event` (the constructors used by the pipeline).
`Event::Html(format!(..))` produced by the repo's `html!` macro becomes
`Event.html` of the corresponding concatenated string. -/
inductive Event where
  | start (t : MdTag)
  | endTag (t : MdTag)
  | text (s : String)
  | code (s : String)
  | html (s : String)
  | rule
  | taskListMarker (checked : Bool)
  | softBreak
  | hardBreak
deriving DecidableEq, Repr

/-- `extensions/toc.rs`: `Heading { title, anchor, level }`. -/
structure Heading where
  title : String
  anchor : String
  level : Nat
deriving DecidableEq, Repr

/-- `extensions/link_rewriter.rs`: `UrlType`.  `Remote` carries the URL
string handed to `Url::parse` (the crate's normalisation of the stored
`Url` value is external). -/
inductive UrlType where
  | local (path : String)
  | remote (url : String)
deriving DecidableEq, Repr

/-- `extensions/link_rewriter.rs`: `Link { title, url }`. -/
structure Link where
  title : String
  url : UrlType
deriving DecidableEq, Repr

/-- `extension.rs`: `Output`. -/
inductive Output where
  | none
  | event (e : Event)
  | link (l : Link)
  | heading (h : Heading)
  | block (s : String)
deriving DecidableEq, Repr

/-- Outcome of `url::Url::parse`, abstracted: success (recording whether the
parsed URL has a host), the two error variants the code distinguishes, or
any other parse error. -/
inductive UrlOutcome where
  | ok (hasHost : Bool)
  | errEmptyHost
  | errRelativeNoBase
  | errOther
deriving DecidableEq, Repr

/-- `extensions/callout.rs`: `CalloutKind`. -/
inductive CalloutKind where
  | info
  | success
  | warning
  | error
deriving DecidableEq, Repr

/-- `impl fmt::Display for CalloutKind`. -/
def CalloutKind.display : CalloutKind → String
  | .info => "info"
  | .success => "success"
  | .warning => "warning"
  | .error => "error"

/-- `impl TryFrom<&str> for CalloutKind` (`Ok`/`Err` as `some`/`none`). -/
def calloutKindTryFrom (value : String) : Option CalloutKind :=
  match value with
  | "info" => some .info
  | "notice" => some .info
  | "success" => some .success
  | "warning" => some .warning
  | "warn" => some .warning
  | "error" => some .error
  | _ => none

/-- The `callout_types` array in `parse_callout`. -/
def calloutTypes : List String := ["info", "notice", "success", "warn", "warning", "error"]

/-- Rust `str::split(pat)` on a char predicate: the pieces between
separator characters, empty pieces kept (structural, so that concrete
instances compute by `rfl`). -/
def splitCharList (p : Char → Bool) : List Char → List (List Char)
  | [] => [[]]
  | c :: rest =>
    if p c then [] :: splitCharList p rest
    else
      match splitCharList p rest with
      | [] => [[c]]
      | piece :: more => (c :: piece) :: more

/-- Rust `str::split` on a char predicate, as a `String` function. -/
def splitStr (s : String) (p : Char → Bool) : List String :=
  (splitCharList p s.data).map String.mk

/-- Rust `str::starts_with` (structural). -/
def strStartsWith (s pat : String) : Bool :=
  pat.data.isPrefixOf s.data

/-- Rust `str::split_whitespace`: whitespace-separated non-empty pieces. -/
def splitWhitespace (s : String) : List String :=
  (splitStr s Char.isWhitespace).filter (fun t => t ≠ "")

/-- `parse_callout` (`extensions/callout.rs`).  The outer `Option` is panic:
`words.next().unwrap()` panics when the text has no whitespace-separated
word at all.  The inner `Option` is the function's own return value. -/
def parseCallout (text : String) : Option (Option (CalloutKind × String)) :=
  match splitWhitespace text with
  | [] => none
  | firstWord :: rest =>
    let title := String.intercalate " " rest
    match calloutTypes.find? (fun ct => firstWord = ct) with
    | some ct =>
      match calloutKindTryFrom ct with
      | some kind => some (some (kind, title))
      | none => some none
    | none => some none

/-- The reverse-search predicate for `Start(Tag::BlockQuote)`. -/
def isStartBlockQuote : Event → Bool
  | .start .blockQuote => true
  | _ => false

/-- The title-collection loop of `Callout::process_event`: concatenate
`Text`/`Code` content of the events after the block-quote start, stopping
at the first `End(Paragraph)`. -/
def calloutCollectTitle : List Event → String
  | [] => ""
  | .text s :: rest => s ++ calloutCollectTitle rest
  | .code s :: rest => s ++ calloutCollectTitle rest
  | .endTag .paragraph :: _ => ""
  | _ :: rest => calloutCollectTitle rest

/-- The blanking loop of `Callout::process_event`: overwrite every buffered
event of the title line with `Html("")`, up to and including the first
`End(Paragraph)`. -/
def calloutBlank : List Event → List Event
  | [] => []
  | .endTag .paragraph :: rest => .html "" :: rest
  | _ :: rest => .html "" :: calloutBlank rest

/-- The opening markup written over the `Start(BlockQuote)` event. -/
def calloutOpenHtml (kind : CalloutKind) (title : String) : String :=
  if title = "" then
    "<div class=\"callout " ++ kind.display ++ "\"><div class=\"callout-content\">"
  else
    "<div class=\"callout " ++ kind.display ++ "\"><p class=\"callout-title\">" ++ title
      ++ "</p><div class=\"callout-content\">"

/-- `Callout::process_event` (`extensions/callout.rs`).  Returns the mutated
buffer together with the `(output, handled)` pair; `none` is a panic
(either `position(..).unwrap()` finding no block-quote start, or the
`unwrap` inside `parse_callout`). -/
def calloutProcessEvent (events : List Event) (ev : Event) :
    Option (List Event × Option (List Output) × Bool) :=
  match ev with
  | .endTag .blockQuote =>
    match events.reverse.findIdx? isStartBlockQuote with
    | none => none
    | some pos =>
      let startIndex := events.length - 1 - pos
      let calloutTitle := calloutCollectTitle (events.drop (startIndex + 1))
      match parseCallout calloutTitle with
      | none => none
      | some none => some (events, none, false)
      | some (some (kind, title)) =>
        let blanked := events.take (startIndex + 1) ++ calloutBlank (events.drop (startIndex + 1))
        let events' := blanked.set startIndex (.html (calloutOpenHtml kind title))
        some (events', some [.event (.html "</div></div>")], true)
  | _ => some (events, none, false)

/-- Rust `inner.split(' ').next().unwrap()`: the first piece of splitting on
a single space.  Rust's `split` always yields at least one piece, so the
`unwrap` never panics; the `[]` case below is unreachable. -/
def firstSpaceToken (s : String) : String :=
  match splitStr s (fun c => c == ' ') with
  | [] => ""
  | t :: _ => t

/-- `MermaidBlock::process_event` (`extensions/mermaid.rs`). -/
def mermaidProcessEvent (events : List Event) (ev : Event) :
    Option (List Event × Option (List Output) × Bool) :=
  match ev with
  | .start (.codeBlock (.fenced inner)) =>
    if firstSpaceToken inner = "mermaid" then
      some (events, some [.event (.html "<div class=\"mermaid\">\n"), .block "diagram"], true)
    else
      some (events, none, false)
  | .endTag (.codeBlock (.fenced inner)) =>
    if firstSpaceToken inner = "mermaid" then
      some (events, some [.event (.html "</div>")], true)
    else
      some (events, none, false)
  | _ => some (events, none, false)

/-- `MathBlock::process_event` (`extensions/math.rs`).  The katex /
latex2mathml rendering is behind cargo features that are not enabled, so
the block body passes through verbatim. -/
def mathProcessEvent (events : List Event) (ev : Event) :
    Option (List Event × Option (List Output) × Bool) :=
  match ev with
  | .start (.codeBlock (.fenced inner)) =>
    if firstSpaceToken inner = "math" then
      some (events, some [.event (.html "<div class=\"math\">\n"), .block "math"], true)
    else
      some (events, none, false)
  | .endTag (.codeBlock (.fenced inner)) =>
    if firstSpaceToken inner = "math" then
      some (events, some [.event (.html "</div>")], true)
    else
      some (events, none, false)
  | _ => some (events, none, false)

/-- `extensions/tabs.rs`: `Tab`. -/
structure Tab where
  id : String
  title : String
  isActive : Bool
deriving DecidableEq, Repr

/-- `extensions/tabs.rs`: `TabGroup`. -/
structure TabGroup where
  index : Nat
  tabs : List Tab
deriving DecidableEq, Repr

/-- `extensions/tabs.rs`: the `Tabs` extension state. -/
structure TabsState where
  currentTabgroup : Option TabGroup
  currentTab : Option Tab
deriving DecidableEq, Repr

/-- Rust `url.split("/").skip(2).next()` in `Tabs::process_event`. -/
def tabIdOf (url : String) : Option String :=
  match (splitStr url (fun c => c == '/')).drop 2 with
  | [] => none
  | t :: _ => some t

/-- The label markup for one recorded tab (`close_tabgroup`). -/
def tabLabelHtml (t : Tab) : String :=
  "<label class=\"" ++ (if t.isActive then "active" else "") ++ "\" id=\"" ++ t.id
    ++ "\" title=\"" ++ t.title ++ "\" role=\"tab\">" ++ t.title ++ "</label>"

/-- The `<li>` + `<label>` + `</li>` triple for one tab (`close_tabgroup`). -/
def tabListItem (t : Tab) : List Event :=
  [.html "<li class= role=\"presentation\">", .html (tabLabelHtml t), .html "</li>"]

/-- `close_tabgroup` (`extensions/tabs.rs`): splice the rendered tab strip
over the `<tabstrip/>` placeholder at `tabgroup.index + 1` and return the
two closing `</div>` outputs.  `none` models the panic of
`Vec::splice` when `idx + 1 > events.len()`. -/
def closeTabgroup (events : List Event) (g : TabGroup) :
    Option (List Event × List Output) :=
  let idx := g.index + 1
  let tablist : List Event :=
    [.html "<ul class=\"tab-list\" role=\"tablist\">"]
      ++ (g.tabs.map tabListItem).flatten
      ++ [.html "</ul>"]
  if idx + 1 ≤ events.length then
    some (events.take idx ++ tablist ++ events.drop (idx + 1),
          [.event (.html "</div>"), .event (.html "</div>")])
  else
    none

/-- The backward blanking loop of `Tabs::process_event` on `End(Heading)`,
expressed on the reversed buffer: blank every event until (and including)
the most recent `Start(Heading)`, leaving `Html` events untouched. -/
def tabsBlankBack : List Event → List Event
  | [] => []
  | .start (.heading _) :: rest => .html "" :: rest
  | .html s :: rest => .html s :: tabsBlankBack rest
  | _ :: rest => .html "" :: tabsBlankBack rest

/-- The opening markup of a tab panel (`Tabs::process_event`). -/
def tabPanelHtml (isActive : Bool) (tabId : String) : String :=
  "<div class=\"tab-panel " ++ (if isActive then "active" else "") ++ "\" data-tab-id=\""
    ++ tabId ++ "\">"

/-- `Tabs::process_event` (`extensions/tabs.rs`). -/
def tabsProcessEvent (st : TabsState) (events : List Event) (ev : Event) :
    Option (TabsState × List Event × Option (List Output) × Bool) :=
  match ev with
  | .start (.link lt url _title) =>
    if lt = LinkType.inline ∧ strStartsWith url "#/tab/" = true then
      match tabIdOf url with
      | none => some (st, events, none, false)
      | some tabId =>
        let opened :=
          if st.currentTabgroup.isNone then
            (⟨some ⟨events.length, []⟩, st.currentTab⟩,
             [Output.event (.html "<div class=\"tabgroup\">"), Output.event (.html "<tabstrip/>")])
          else
            ((st : TabsState), ([] : List Output))
        let st1 := opened.1
        let isActive : Bool :=
          match st1.currentTabgroup with
          | some g => g.tabs.length == 0
          | none => false
        let output2 :=
          if isActive then opened.2 else opened.2 ++ [Output.event (.html "</div>")]
        let st2 : TabsState := ⟨st1.currentTabgroup, some ⟨tabId, "", isActive⟩⟩
        some (st2, events, some (output2 ++ [Output.event (.html (tabPanelHtml isActive tabId))]), true)
    else
      some (st, events, none, false)
  | .rule =>
    match st.currentTabgroup with
    | some g =>
      match closeTabgroup events g with
      | none => none
      | some (events', out) => some (⟨none, none⟩, events', some out, true)
    | none => some (st, events, none, false)
  | .endTag (.heading _) =>
    match st.currentTabgroup, st.currentTab with
    | some g, some t =>
      let st' : TabsState := ⟨some ⟨g.index, g.tabs ++ [t]⟩, none⟩
      some (st', (tabsBlankBack events.reverse).reverse, none, true)
    | _, _ => some (st, events, none, false)
  | .text s =>
    match st.currentTab with
    | some t => some (⟨st.currentTabgroup, some ⟨t.id, t.title ++ s, t.isActive⟩⟩, events, none, false)
    | none => some (st, events, none, false)
  | .code s =>
    match st.currentTab with
    | some t => some (⟨st.currentTabgroup, some ⟨t.id, t.title ++ s, t.isActive⟩⟩, events, none, false)
    | none => some (st, events, none, false)
  | _ => some (st, events, none, false)

/-- `Tabs::end_of_doc` (`extensions/tabs.rs`). -/
def tabsEndOfDoc (st : TabsState) (events : List Event) :
    Option (TabsState × List Event × Option (List Output)) :=
  match st.currentTabgroup with
  | some g =>
    match closeTabgroup events g with
    | none => none
    | some (events', out) => some (⟨none, none⟩, events', some out)
  | none => some (st, events, none)

/-- External services of the pipeline: syntect (syntax lookup + classed-span
highlighting), url::Url::parse classification, and the emojis shortcode
table.  All are external crates; the pipeline is proved for every
instantiation. -/
structure Externals where
  findLang : String → Bool
  highlightCode : String → String → Option String
  urlParse : String → UrlOutcome
  getEmoji : String → Option String

/-- `CodeBlock::process_event` (`extensions/codeblock.rs`).
`ext.findLang inner` models `syntax_set.find_syntax_by_token(inner)`
succeeding, and `ext.highlightCode inner code` models
`highlighted_html_for_string` (with `none` for `Err`).  `none` overall is
the `events.last_mut().unwrap()` panic on an empty buffer. -/
def codeblockProcessEvent (ext : Externals) (events : List Event) (ev : Event) :
    Option (List Event × Option (List Output) × Bool) :=
  match ev with
  | .endTag (.codeBlock (.fenced inner)) =>
    if ext.findLang inner then
      match events.getLast? with
      | none => none
      | some (.text codeStr) =>
        match ext.highlightCode inner codeStr with
        | some highlighted =>
          some (events.set (events.length - 1) (.html highlighted),
                some [.event ev, .block "code"], true)
        | none => some (events, none, false)
      | some _ => some (events, none, false)
    else
      some (events, none, false)
  | _ => some (events, none, false)

/-- `extensions/link_rewriter.rs`: the `LinkRewriter` extension state
(options copied from `ParseOptions` by `MarkdownParser::new`, plus the
`current_link` accumulator). -/
structure LinkRewriterState where
  urlRoot : String
  linkRewriteRules : List (String × String)
  urlParams : List (String × String)
  currentLink : Option Link
deriving DecidableEq, Repr

/-- Rust `str::trim_end_matches('/')`. -/
def trimEndSlashes (s : String) : String :=
  String.mk ((s.data.reverse.dropWhile (fun c => c == '/')).reverse)

/-- `LinkRewriter::rewrite_link` (`extensions/link_rewriter.rs`): exact-match
substitution via the rewrite rules, else prefix absolute-path URLs with the
trimmed `url_root`, else leave the URL untouched. -/
def rewriteLink (st : LinkRewriterState) (url : String) : String :=
  match st.linkRewriteRules.lookup url with
  | some matchingLink => matchingLink
  | none =>
    if strStartsWith url "/" then trimEndSlashes st.urlRoot ++ url
    else url

/-- `append_parameters` (`extensions/link_rewriter.rs`): append
`?k1=v1&k2=v2...` in the given order. -/
def appendParameters (url : String) (urlParams : List (String × String)) : String :=
  url ++ "?" ++ String.intercalate "&" (urlParams.map (fun p => p.1 ++ "=" ++ p.2))

/-- `is_in_local_domain` (`extensions/link_rewriter.rs`). -/
def isInLocalDomain (urlParse : String → UrlOutcome) (urlString : String) : Bool :=
  match urlParse urlString with
  | .ok hasHost => !hasHost
  | .errRelativeNoBase => true
  | .errEmptyHost => true
  | .errOther => false

/-- The `Url::parse(..).map(Remote).or_else(..)` classification in
`LinkRewriter::process_event`: `some` is the `Ok` branch, `none` means the
link is discarded (any parse error other than `EmptyHost` /
`RelativeUrlWithoutBase`). -/
def classifyUrl (urlParse : String → UrlOutcome) (url : String) : Option UrlType :=
  match urlParse url with
  | .ok _ => some (.remote url)
  | .errEmptyHost => some (.local url)
  | .errRelativeNoBase => some (.local url)
  | .errOther => none

/-- The effective URL of a `Start(Link)` in `LinkRewriter::process_event`:
rewrite, then append the query parameters when they are non-empty and the
rewritten URL is in the local domain. -/
def linkEffectiveUrl (urlParse : String → UrlOutcome) (st : LinkRewriterState)
    (url : String) : String :=
  let rewritten := rewriteLink st url
  if ¬ st.urlParams.isEmpty ∧ isInLocalDomain urlParse rewritten = true then
    appendParameters rewritten st.urlParams
  else
    rewritten

/-- `LinkRewriter::process_event` (`extensions/link_rewriter.rs`). -/
def linkRewriterProcessEvent (urlParse : String → UrlOutcome) (st : LinkRewriterState)
    (events : List Event) (ev : Event) :
    Option (LinkRewriterState × List Event × Option (List Output) × Bool) :=
  match ev with
  | .start (.image lt url title) =>
    some (st, events, some [.event (.start (.image lt (rewriteLink st url) title))], true)
  | .start (.link lt url title) =>
    let url' := linkEffectiveUrl urlParse st url
    let st' :=
      if lt = LinkType.inline then
        match classifyUrl urlParse url' with
        | some validUrl =>
          { st with currentLink := some ⟨title, validUrl⟩ }
        | none => st
      else st
    some (st', events, some [.event (.start (.link lt url' title))], true)
  | .endTag (.link lt url title) =>
    let out :=
      match st.currentLink with
      | some l => [Output.link l, Output.event (.endTag (.link lt url title))]
      | none => [Output.event (.endTag (.link lt url title))]
    some ({ st with currentLink := none }, events, some out, true)
  | .text s =>
    match st.currentLink with
    | some l =>
      some ({ st with currentLink := some ⟨l.title ++ s, l.url⟩ }, events, none, false)
    | none => some (st, events, none, false)
  | _ => some (st, events, none, false)

/-- Modelled from the spec: `slug::slugify` is an external crate.  The spec
fixes the contract ("a normalized, URL-safe, lowercase-hyphenated
identifier derived from heading text": ASCII letters and digits are kept
lowercased, every other character becomes a hyphen, hyphen runs are
collapsed and stripped from both ends), which is the slug crate's
behaviour on ASCII text. -/
def slugifyChar (c : Char) : Char :=
  if ('a' ≤ c ∧ c ≤ 'z') ∨ ('0' ≤ c ∧ c ≤ '9') then c
  else if 'A' ≤ c ∧ c ≤ 'Z' then c.toLower
  else '-'

/-- Collapse runs of '-' to a single '-'. -/
def collapseDashes : List Char → List Char
  | [] => []
  | '-' :: rest =>
    match collapseDashes rest with
    | '-' :: tail => '-' :: tail
    | tail => '-' :: tail
  | c :: rest => c :: collapseDashes rest

/-- Modelled from the spec: see `slugifyChar`. -/
def slugify (s : String) : String :=
  let mapped := collapseDashes (s.data.map slugifyChar)
  String.mk ((mapped.dropWhile (fun c => c == '-')).reverse.dropWhile (fun c => c == '-')
    |>.reverse)

/-- `extensions/toc.rs`: the `TableOfContents` extension state. -/
structure TocState where
  currentHeading : Option Heading
deriving DecidableEq, Repr

/-- The reverse-search predicate for `Start(Tag::Heading(_))`. -/
def isStartHeading : Event → Bool
  | .start (.heading _) => true
  | _ => false

/-- The rewritten heading-open marker `<hN id="...">`. -/
def headingOpenHtml (level : Nat) (anchor : String) : String :=
  "<h" ++ toString level ++ " id=\"" ++ anchor ++ "\">"

/-- `TableOfContents::process_event` (`extensions/toc.rs`).  `none` models
the panics of `current_heading.take().unwrap()` and of
`find(..).unwrap()`.  Note the source returns `handled = false` even on
`End(Heading)` although its output already contains a copy of the event. -/
def tocProcessEvent (st : TocState) (events : List Event) (ev : Event) :
    Option (TocState × List Event × Option (List Output) × Bool) :=
  match ev with
  | .start (.heading level) =>
    if 1 ≤ level ∧ level ≤ 6 then
      some (⟨some ⟨"", "", level⟩⟩, events, none, false)
    else
      some (st, events, none, false)
  | .endTag (.heading _) =>
    match st.currentHeading with
    | none => none
    | some h0 =>
      let h : Heading := ⟨h0.title, slugify h0.title, h0.level⟩
      match events.reverse.findIdx? isStartHeading with
      | none => none
      | some pos =>
        let i := events.length - 1 - pos
        some (⟨none⟩, events.set i (.html (headingOpenHtml h.level h.anchor)),
              some [.heading h, .event ev], false)
  | .text s =>
    match st.currentHeading with
    | some h => some (⟨some ⟨h.title ++ s, h.anchor, h.level⟩⟩, events, none, false)
    | none => some (st, events, none, false)
  | .code s =>
    match st.currentHeading with
    | some h => some (⟨some ⟨h.title ++ s, h.anchor, h.level⟩⟩, events, none, false)
    | none => some (st, events, none, false)
  | _ => some (st, events, none, false)

/-- The `Start(Tag::List(_))` predicate of `Tasklist::process_event`. -/
def isStartList : Event → Bool
  | .start (.list _) => true
  | _ => false

/-- The `TaskListMarker` predicate of `Tasklist::process_event`.  Note the
source scans the whole buffer, not just the current list's contents. -/
def isTaskListMarker : Event → Bool
  | .taskListMarker _ => true
  | _ => false

/-- `Tasklist::process_event` (`extensions/task_list.rs`).  This extension
is declared in `extensions/mod.rs` but `MarkdownParser::new` never
registers it, so the pipeline never invokes it.  `none` models the
`position(..).unwrap()` panic. -/
def tasklistProcessEvent (events : List Event) (ev : Event) :
    Option (List Event × Option (List Output) × Bool) :=
  match ev with
  | .endTag (.list _) =>
    if events.any isTaskListMarker then
      match events.reverse.findIdx? isStartList with
      | none => none
      | some pos =>
        some (events.set (events.length - 1 - pos) (.html "<ul class=\"checklist\">"),
              none, false)
    else
      some (events, none, false)
  | _ => some (events, none, false)

/-- Split a char list at the first occurrence of `c`:
`cs = before ++ c :: after`. -/
def splitFirst (c : Char) : List Char → Option (List Char × List Char)
  | [] => none
  | x :: xs =>
    if x = c then some ([], xs)
    else (splitFirst c xs).map (fun p => (x :: p.1, p.2))

/-- The loop body of `convert_emojis` (`extensions/emoji.rs`), with explicit
fuel.  Each Rust loop iteration strictly shortens the remaining input, so
`length + 1` units of fuel make the fuelled function equal to the Rust
loop; the `0` case is unreachable from `convertEmojis`. -/
def convertEmojisFuel (get : String → Option String) : Nat → List Char → List Char
  | 0, cs => cs
  | fuel + 1, cs =>
    match splitFirst ':' cs with
    | none => cs
    | some (pre, rest) =>
      match splitFirst ':' rest with
      | none => cs
      | some (short, rest2) =>
        match get (String.mk short) with
        | some e => pre ++ (e.data ++ convertEmojisFuel get fuel rest2)
        | none => pre ++ (':' :: (short ++ convertEmojisFuel get fuel (':' :: rest2)))

/-- `EmojiConverter::process_text` / `convert_emojis`
(`extensions/emoji.rs`): substitute `:shortcode:` occurrences via the
(external) emoji table, leaving unrecognised shortcodes untouched. -/
def convertEmojis (get : String → Option String) (s : String) : String :=
  String.mk (convertEmojisFuel get (s.data.length + 1) s.data)

/-- `handle_output` (`parser.rs`): push `Output::Event`s to the buffer and
`Output::Link`/`Output::Heading`s to their accumulators; the catch-all arm
`_ => {}` silently discards `Output::None` and — crucially —
`Output::Block` feature flags. -/
def handleOutput (output : Option (List Output)) (events : List Event)
    (links : List Link) (headings : List Heading) :
    List Event × List Link × List Heading :=
  match output with
  | none => (events, links, headings)
  | some outs =>
    outs.foldl
      (fun acc o =>
        match o with
        | .event e => (acc.1 ++ [e], acc.2.1, acc.2.2)
        | .link l => (acc.1, acc.2.1 ++ [l], acc.2.2)
        | .heading h => (acc.1, acc.2.1, acc.2.2 ++ [h])
        | _ => acc)
      (events, links, headings)

/-- The mutable state of one `MarkdownParser` instance: the states of the
stateful extensions, in registration order (`MarkdownParser::new`). -/
structure ParserState where
  tabs : TabsState
  linkRewriter : LinkRewriterState
  toc : TocState
deriving DecidableEq, Repr

/-- A single extension step as seen by the dispatcher loop: it may read and
mutate the buffer and its own state and returns `(output, handled)`;
`none` is a panic. -/
abbrev ExtFun :=
  ParserState → List Event → Event → Option (ParserState × List Event × Option (List Output) × Bool)

/-- `Callout` as a dispatcher step (stateless). -/
def calloutExt : ExtFun := fun st events ev =>
  (calloutProcessEvent events ev).map (fun r => (st, r))

/-- `MermaidBlock` as a dispatcher step (stateless). -/
def mermaidExt : ExtFun := fun st events ev =>
  (mermaidProcessEvent events ev).map (fun r => (st, r))

/-- `MathBlock` as a dispatcher step (stateless). -/
def mathExt : ExtFun := fun st events ev =>
  (mathProcessEvent events ev).map (fun r => (st, r))

/-- `Tabs` as a dispatcher step. -/
def tabsExt : ExtFun := fun st events ev =>
  (tabsProcessEvent st.tabs events ev).map
    (fun r => ({ st with tabs := r.1 }, r.2))

/-- `CodeBlock` as a dispatcher step (its only state, the syntax set, is
read-only and external). -/
def codeblockExt (ext : Externals) : ExtFun := fun st events ev =>
  (codeblockProcessEvent ext events ev).map (fun r => (st, r))

/-- `LinkRewriter` as a dispatcher step. -/
def linkRewriterExt (ext : Externals) : ExtFun := fun st events ev =>
  (linkRewriterProcessEvent ext.urlParse st.linkRewriter events ev).map
    (fun r => ({ st with linkRewriter := r.1 }, r.2))

/-- `TableOfContents` as a dispatcher step. -/
def tocExt : ExtFun := fun st events ev =>
  (tocProcessEvent st.toc events ev).map
    (fun r => ({ st with toc := r.1 }, r.2))

/-- The fixed extension vector built by `MarkdownParser::new`:
Callout, MermaidBlock, MathBlock, Tabs, CodeBlock, LinkRewriter,
TableOfContents.  (`Tasklist` exists in the source tree but is absent from
this list.) -/
def extensionsOf (ext : Externals) : List ExtFun :=
  [calloutExt, mermaidExt, mathExt, tabsExt, codeblockExt ext, linkRewriterExt ext, tocExt]

/-- The `for extension in &mut self.extensions` dispatch loop of
`MarkdownParser::parse`: feed the event to each extension in order,
appending each extension's output via `handle_output`, stopping as soon as
one reports `handled`. -/
def runExtensions :
    List ExtFun → ParserState → List Event → List Link → List Heading → Event →
    Option (ParserState × List Event × List Link × List Heading × Bool)
  | [], st, events, links, headings, _ => some (st, events, links, headings, false)
  | f :: fs, st, events, links, headings, ev =>
    match f st events ev with
    | none => none
    | some (st', events', out, handled) =>
      let r := handleOutput out events' links headings
      if handled then some (st', r.1, r.2.1, r.2.2, true)
      else runExtensions fs st' r.1 r.2.1 r.2.2 ev

/-- The per-event text-processing pass of `MarkdownParser::parse`: `Text`
events run through every registered `TextExtension` (only
`EmojiConverter`). -/
def textProcess (ext : Externals) : Event → Event
  | .text s => .text (convertEmojis ext.getEmoji s)
  | e => e

/-- The result accumulators of one `MarkdownParser::parse` call. -/
structure Accums where
  events : List Event
  links : List Link
  headings : List Heading
deriving DecidableEq, Repr

/-- One iteration of the `while let Some(ev) = parser.next()` loop in
`MarkdownParser::parse`: text-process the event, dispatch it through the
extension chain, and append it unchanged if no extension handled it. -/
def processOne (ext : Externals) (st : ParserState) (acc : Accums) (ev0 : Event) :
    Option (ParserState × Accums) :=
  let ev := textProcess ext ev0
  match runExtensions (extensionsOf ext) st acc.events acc.links acc.headings ev with
  | none => none
  | some (st', events', links', headings', handled) =>
    if handled then some (st', ⟨events', links', headings'⟩)
    else some (st', ⟨events' ++ [ev], links', headings'⟩)

/-- The whole event loop of `MarkdownParser::parse`. -/
def runEvents (ext : Externals) : ParserState → Accums → List Event →
    Option (ParserState × Accums)
  | st, acc, [] => some (st, acc)
  | st, acc, ev :: rest =>
    match processOne ext st acc ev with
    | none => none
    | some (st', acc') => runEvents ext st' acc' rest

/-- The end-of-document pass of `MarkdownParser::parse`: every extension's
`end_of_doc` runs once, in registration order.  Only `Tabs` overrides the
default (which returns `None`), so the pass reduces to `Tabs::end_of_doc`. -/
def endOfDocAll (st : ParserState) (acc : Accums) : Option Accums :=
  match tabsEndOfDoc st.tabs acc.events with
  | none => none
  | some (_, events', out) =>
    let r := handleOutput out events' acc.links acc.headings
    some ⟨r.1, r.2.1, r.2.2⟩

/-- `parser.rs`: `ParseOptions` (the fields the pipeline reads;
`root_dir` is unused by the pipeline). -/
structure ParseOptions where
  urlRoot : String
  linkRewriteRules : List (String × String)
  urlParams : List (String × String)
deriving Repr

/-- `impl Default for ParseOptions`. -/
def ParseOptions.default : ParseOptions := ⟨"/", [], []⟩

/-- `MarkdownParser::new`: the initial extension states. -/
def initState (opts : ParseOptions) : ParserState :=
  ⟨⟨none, none⟩,
   ⟨opts.urlRoot, opts.linkRewriteRules, opts.urlParams, none⟩,
   ⟨none⟩⟩

/-- `parser.rs`: `ParsedMarkdown`.  Its fields are exactly `html`,
`headings` and `links` — there is no `blocks` field.  The `html` string is
produced by the external `pulldown_cmark::html::push_html` renderer and
the external `ammonia` sanitizer from the final buffer, so the embedding
keeps the final buffer itself. -/
structure ParsedMarkdown where
  events : List Event
  headings : List Heading
  links : List Link
deriving DecidableEq, Repr

/-- `MarkdownParser::parse` (`parser.rs`), from the event stream to the
final buffer and accumulators.  `none` means the Rust code panics. -/
def parse (ext : Externals) (opts : ParseOptions) (input : List Event) :
    Option ParsedMarkdown :=
  match runEvents ext (initState opts) ⟨[], [], []⟩ input with
  | none => none
  | some (st, acc) =>
    match endOfDocAll st acc with
    | none => none
    | some acc' => some ⟨acc'.events, acc'.headings, acc'.links⟩

/-- A sample instantiation of `url::Url::parse` classification, matching the
crate's behaviour on the concrete URLs used in the examples below:
`http(s)://` URLs parse as absolute with a host, `bad::url` parses with a
non-special scheme error, everything else is relative. -/
def urlParseDemo (s : String) : UrlOutcome :=
  if strStartsWith s "http://" || strStartsWith s "https://" then .ok true
  else if s = "bad::url" then .errOther
  else .errRelativeNoBase

/-- A sample instantiation of the external services: syntect knows `ruby`,
the highlighter wraps the code in a span, and the emoji table is empty. -/
def extDemo : Externals :=
  ⟨fun lang => lang == "ruby",
   fun _ codeStr => some ("<span class=\"src\">" ++ codeStr ++ "</span>"),
   urlParseDemo,
   fun _ => none⟩

/-- Modelled from the spec: the sanitizer is the external `ammonia` crate
(driven by html5ever); only its configuration lives in `to_html`
(`parser.rs`).  §4.9 fixes the sanitizer's contract as a pass over the
parsed HTML that allow-lists tags, per-tag attributes, per-tag attribute
values and per-tag class tokens, removes `form`/`script`/`style` together
with their contents, and unwraps unknown tags (children kept).  The model
works on the token representation of that parsed HTML; the
string-to-token parse/serialize roundtrip is the external library's. -/
structure HtmlAttr where
  name : String
  value : String
deriving DecidableEq, Repr

/-- Modelled from the spec: one token of parsed HTML.  The `class`
attribute is kept token-split, as `ammonia`'s `allowed_classes` operates
on class tokens. -/
inductive HtmlTok where
  | text (s : String)
  | tagOpen (name : String) (attrs : List HtmlAttr) (classes : List String)
  | tagClose (name : String)
deriving DecidableEq, Repr

/-- `to_html` (`parser.rs`): `add_clean_content_tags(&["form", "script", "style"])`. -/
def cleanContentTags : List String := ["form", "script", "style"]

/-- Modelled from the spec: the tag allow-list of `to_html` — the tags the
builder configures plus the plain formatting tags of the sanitizer's
default allow-list that the pipeline's renderer emits. -/
def allowedTags : List String :=
  ["a", "blockquote", "br", "code", "div", "em", "h1", "h2", "h3", "h4", "h5", "h6",
   "hr", "img", "input", "label", "li", "ol", "p", "pre", "span", "strong", "ul"]

/-- `to_html` (`parser.rs`): the `allowed_classes` entry for `div`. -/
def allowedDivClasses : List String :=
  ["mermaid", "math", "callout", "callout-title", "info", "success", "warning", "error",
   "tabgroup", "tab", "tab-panel", "active"]

/-- `to_html` (`parser.rs`): the `allowed_classes` entry for `label`. -/
def allowedLabelClasses : List String := ["active"]

/-- The per-tag attribute policy of `to_html`: `add_tag_attributes` plus the
value-restricted `add_tag_attribute_values` entries for `input`, plus the
default `href`/`src` attributes of anchors and images. -/
def attrKeep (tag : String) (a : HtmlAttr) : Bool :=
  if tag = "h1" ∨ tag = "h2" ∨ tag = "h3" ∨ tag = "h4" ∨ tag = "h5" ∨ tag = "h6" then
    a.name = "id"
  else if tag = "label" then a.name = "id" ∨ a.name = "role"
  else if tag = "div" then a.name = "id" ∨ a.name = "data-tab-title" ∨ a.name = "data-tab-id"
  else if tag = "ul" ∨ tag = "li" then a.name = "role"
  else if tag = "a" then a.name = "href" ∨ a.name = "hreflang"
  else if tag = "img" then
    a.name = "src" ∨ a.name = "alt" ∨ a.name = "height" ∨ a.name = "width" ∨ a.name = "align"
  else if tag = "input" then
    (a.name = "type" ∧ a.value = "checkbox") ∨ (a.name = "disabled" ∧ a.value = "")
      ∨ (a.name = "checked" ∧ a.value = "")
  else false

/-- The per-tag class policy of `to_html`: `allowed_classes` filters class
tokens on `div`/`label`; `code`/`p`/`span` allow the whole `class`
attribute (`add_tag_attributes .. &["class"]`); every other tag loses its
classes. -/
def classKeep (tag : String) (c : String) : Bool :=
  if tag = "div" then allowedDivClasses.contains c
  else if tag = "label" then allowedLabelClasses.contains c
  else if tag = "code" ∨ tag = "p" ∨ tag = "span" then true
  else false

/-- Modelled from the spec: the sanitizer pass.  The first argument counts
currently-open `form`/`script`/`style` elements; while it is positive
everything (tag and children) is removed.  At depth zero: text is kept,
allowed tags are kept with their attributes and class tokens filtered,
unknown tags are unwrapped (token dropped, children kept), and
`form`/`script`/`style` opens enter removal mode. -/
def sanitizeToks : Nat → List HtmlTok → List HtmlTok
  | _, [] => []
  | d + 1, tok :: rest =>
    match tok with
    | .tagOpen n _ _ =>
      sanitizeToks (if cleanContentTags.contains n then d + 2 else d + 1) rest
    | .tagClose n =>
      sanitizeToks (if cleanContentTags.contains n then d else d + 1) rest
    | .text _ => sanitizeToks (d + 1) rest
  | 0, tok :: rest =>
    match tok with
    | .text s => .text s :: sanitizeToks 0 rest
    | .tagOpen n attrs classes =>
      if cleanContentTags.contains n then sanitizeToks 1 rest
      else if allowedTags.contains n then
        .tagOpen n (attrs.filter (attrKeep n)) (classes.filter (classKeep n))
          :: sanitizeToks 0 rest
      else sanitizeToks 0 rest
    | .tagClose n =>
      if cleanContentTags.contains n then sanitizeToks 0 rest
      else if allowedTags.contains n then .tagClose n :: sanitizeToks 0 rest
      else sanitizeToks 0 rest

/-- `MarkdownParser::to_html` (`parser.rs`), on the token representation of
its input and output strings: one sanitizer pass with the `to_html`
policy. -/
def toHtml (toks : List HtmlTok) : List HtmlTok :=
  sanitizeToks 0 toks

theorem handleOutput_none (events : List Event) (links : List Link) (headings : List Heading) :
    handleOutput none events links headings = (events, links, headings) := rfl

theorem handleOutput_some_cons (o : Output) (outs : List Output) (events : List Event)
    (links : List Link) (headings : List Heading) :
    handleOutput (some (o :: outs)) events links headings =
      match o with
      | .event e => handleOutput (some outs) (events ++ [e]) links headings
      | .link l => handleOutput (some outs) events (links ++ [l]) headings
      | .heading h => handleOutput (some outs) events links (headings ++ [h])
      | _ => handleOutput (some outs) events links headings := by
  cases o <;> rfl

theorem handleOutput_append (output : Option (List Output)) :
    ∀ (events : List Event) (links : List Link) (headings : List Heading),
    ∃ te tl th, handleOutput output events links headings =
      (events ++ te, links ++ tl, headings ++ th) := by
  match output with
  | none =>
    intro events links headings
    exact ⟨[], [], [], by simp [handleOutput]⟩
  | some outs =>
    induction outs with
    | nil =>
      intro events links headings
      exact ⟨[], [], [], by simp [handleOutput]⟩
    | cons o rest ih =>
      intro events links headings
      rw [handleOutput_some_cons]
      cases o with
      | event e =>
        obtain ⟨te, tl, th, hh⟩ := ih (events ++ [e]) links headings
        exact ⟨[e] ++ te, tl, th, by simpa [List.append_assoc] using hh⟩
      | link l =>
        obtain ⟨te, tl, th, hh⟩ := ih events (links ++ [l]) headings
        exact ⟨te, [l] ++ tl, th, by simpa [List.append_assoc] using hh⟩
      | heading h =>
        obtain ⟨te, tl, th, hh⟩ := ih events links (headings ++ [h])
        exact ⟨te, tl, [h] ++ th, by simpa [List.append_assoc] using hh⟩
      | none =>
        obtain ⟨te, tl, th, hh⟩ := ih events links headings
        exact ⟨te, tl, th, hh⟩
      | block s =>
        obtain ⟨te, tl, th, hh⟩ := ih events links headings
        exact ⟨te, tl, th, hh⟩

theorem runExtensions_append :
    ∀ (fs : List ExtFun) (st : ParserState) (events : List Event) (links : List Link)
      (headings : List Heading) (ev : Event) (st' : ParserState) (events' : List Event)
      (links' : List Link) (headings' : List Heading) (b : Bool),
    runExtensions fs st events links headings ev = some (st', events', links', headings', b) →
    (∃ tl, links' = links ++ tl) ∧ (∃ th, headings' = headings ++ th) := by
  intro fs
  induction fs with
  | nil =>
    intro st events links headings ev st' events' links' headings' b h
    simp only [runExtensions, Option.some.injEq, Prod.mk.injEq] at h
    obtain ⟨-, -, h2, h3, -⟩ := h
    exact ⟨⟨[], by simp [← h2]⟩, ⟨[], by simp [← h3]⟩⟩
  | cons f fs ih =>
    intro st events links headings ev st' events' links' headings' b h
    simp only [runExtensions] at h
    cases hf : f st events ev with
    | none => rw [hf] at h; simp at h
    | some r =>
      obtain ⟨st1, events1, out1, handled1⟩ := r
      rw [hf] at h
      simp only at h
      obtain ⟨te, tl, th, hh⟩ := handleOutput_append out1 events1 links headings
      rw [hh] at h
      cases handled1 with
      | true =>
        simp only [if_true, Option.some.injEq, Prod.mk.injEq] at h
        obtain ⟨-, -, hl, hhd, -⟩ := h
        exact ⟨⟨tl, hl.symm⟩, ⟨th, hhd.symm⟩⟩
      | false =>
        simp only [Bool.false_eq_true, if_false] at h
        obtain ⟨⟨tl2, hl⟩, ⟨th2, hhd⟩⟩ := ih _ _ _ _ _ _ _ _ _ _ h
        exact ⟨⟨tl ++ tl2, by simp [hl, List.append_assoc]⟩,
               ⟨th ++ th2, by simp [hhd, List.append_assoc]⟩⟩

theorem processOne_append (ext : Externals) (st : ParserState) (acc : Accums) (ev : Event)
    (st' : ParserState) (acc' : Accums) (h : processOne ext st acc ev = some (st', acc')) :
    (∃ tl, acc'.links = acc.links ++ tl) ∧ (∃ th, acc'.headings = acc.headings ++ th) := by
  simp only [processOne] at h
  cases hr : runExtensions (extensionsOf ext) st acc.events acc.links acc.headings
      (textProcess ext ev) with
  | none => rw [hr] at h; simp at h
  | some r =>
    obtain ⟨st1, events1, links1, headings1, handled1⟩ := r
    rw [hr] at h
    obtain ⟨⟨tl, h2⟩, ⟨th, h3⟩⟩ :=
      runExtensions_append _ _ _ _ _ _ _ _ _ _ _ hr
    cases handled1 with
    | true =>
      simp only [if_true, Option.some.injEq, Prod.mk.injEq] at h
      obtain ⟨-, hacc⟩ := h
      rw [← hacc]
      exact ⟨⟨tl, h2⟩, ⟨th, h3⟩⟩
    | false =>
      simp only [Bool.false_eq_true, if_false, Option.some.injEq, Prod.mk.injEq] at h
      obtain ⟨-, hacc⟩ := h
      rw [← hacc]
      exact ⟨⟨tl, h2⟩, ⟨th, h3⟩⟩

/-- A token that one sanitizer pass can emit: text, or an allowed
non-clean-content tag whose attributes and classes are already fixed
points of the policy filters. -/
def CleanTok : HtmlTok → Prop
  | .text _ => True
  | .tagOpen n attrs classes =>
    cleanContentTags.contains n = false ∧ allowedTags.contains n = true ∧
      attrs.filter (attrKeep n) = attrs ∧ classes.filter (classKeep n) = classes
  | .tagClose n =>
    cleanContentTags.contains n = false ∧ allowedTags.contains n = true

theorem filter_self_of_filter {α : Type} (p : α → Bool) (l : List α) :
    (l.filter p).filter p = l.filter p := by
  apply List.filter_eq_self.mpr
  intro a ha
  exact (List.mem_filter.mp ha).2

theorem sanitizeToks_output_clean :
    ∀ (toks : List HtmlTok) (d : Nat) (tok : HtmlTok),
      tok ∈ sanitizeToks d toks → CleanTok tok := by
  intro toks
  induction toks with
  | nil => intro d tok h; simp [sanitizeToks] at h
  | cons t rest ih =>
    intro d tok h
    match d with
    | dd + 1 =>
      cases t with
      | text s => exact ih _ _ h
      | tagOpen n attrs classes => exact ih _ _ h
      | tagClose n => exact ih _ _ h
    | 0 =>
      cases t with
      | text s =>
        simp only [sanitizeToks, List.mem_cons] at h
        cases h with
        | inl he => rw [he]; trivial
        | inr hr => exact ih _ _ hr
      | tagOpen n attrs classes =>
        simp only [sanitizeToks] at h
        by_cases hc : cleanContentTags.contains n
        · rw [if_pos hc] at h
          exact ih _ _ h
        · rw [if_neg hc] at h
          by_cases ha : allowedTags.contains n
          · rw [if_pos ha] at h
            simp only [List.mem_cons] at h
            cases h with
            | inl he =>
              rw [he]
              exact ⟨Bool.not_eq_true _ ▸ (by simpa using hc), by simpa using ha,
                filter_self_of_filter _ _, filter_self_of_filter _ _⟩
            | inr hr => exact ih _ _ hr
          · rw [if_neg ha] at h
            exact ih _ _ h
      | tagClose n =>
        simp only [sanitizeToks] at h
        by_cases hc : cleanContentTags.contains n
        · rw [if_pos hc] at h
          exact ih _ _ h
        · rw [if_neg hc] at h
          by_cases ha : allowedTags.contains n
          · rw [if_pos ha] at h
            simp only [List.mem_cons] at h
            cases h with
            | inl he =>
              rw [he]
              exact ⟨by simpa using hc, by simpa using ha⟩
            | inr hr => exact ih _ _ hr
          · rw [if_neg ha] at h
            exact ih _ _ h

theorem sanitizeToks_of_clean :
    ∀ (toks : List HtmlTok), (∀ tok ∈ toks, CleanTok tok) →
      sanitizeToks 0 toks = toks := by
  intro toks
  induction toks with
  | nil => intro _; rfl
  | cons t rest ih =>
    intro hcl
    have ht := hcl t (List.mem_cons_self t rest)
    have hrest : ∀ tok ∈ rest, CleanTok tok := fun tok hm => hcl tok (List.mem_cons_of_mem t hm)
    cases t with
    | text s =>
      simp only [sanitizeToks]
      rw [ih hrest]
    | tagOpen n attrs classes =>
      obtain ⟨hc, ha, hattrs, hclasses⟩ := ht
      simp only [sanitizeToks]
      rw [if_neg (by simp only [hc]; simp), if_pos ha, hattrs, hclasses, ih hrest]
    | tagClose n =>
      obtain ⟨hc, ha⟩ := ht
      simp only [sanitizeToks]
      rw [if_neg (by simp only [hc]; simp), if_pos ha, ih hrest]

/-- C9: the sanitizer pass is idempotent — applying the `to_html`
sanitization policy to its own output yields the same result, for every
input token sequence.  (The sanitizer itself is the external `ammonia`
crate; its allow-list policy, configured in `to_html` and fixed by §4.9,
is modelled by `toHtml`.) -/
theorem c9_sanitizer_idempotent (toks : List HtmlTok) : toHtml (toHtml toks) = toHtml toks :=
  sanitizeToks_of_clean _ (fun _ hm => sanitizeToks_output_clean _ _ _ hm)

/-- C1: the claim is right about what the extensions emit, but the code
drops it.  The Mermaid/Math/CodeBlock extensions do emit the
`"diagram"`/`"math"`/`"code"` feature flags as `Output::Block` values, but
`handle_output`'s catch-all arm `_ => {}` discards every `Output::Block`,
and `ParsedMarkdown` (the `parse` result) has no `blocks` field at all —
while `site_generator.rs` reads `doc.markdown.blocks`.  The last conjunct
evaluates the pipeline on a mermaid document: the flag leaves no trace in
the result. -/
theorem c1_feature_flags_discarded :
    (∀ (events : List Event) (links : List Link) (headings : List Heading) (s : String),
        handleOutput (some [Output.block s]) events links headings = (events, links, headings))
  ∧ (∀ events : List Event,
        mermaidProcessEvent events (.start (.codeBlock (.fenced "mermaid"))) =
          some (events, some [.event (.html "<div class=\"mermaid\">\n"), .block "diagram"], true))
  ∧ (∀ events : List Event,
        mathProcessEvent events (.start (.codeBlock (.fenced "math"))) =
          some (events, some [.event (.html "<div class=\"math\">\n"), .block "math"], true))
  ∧ parse extDemo ParseOptions.default
      [.start (.codeBlock (.fenced "mermaid")), .text "A-->B;",
       .endTag (.codeBlock (.fenced "mermaid"))] =
      some ⟨[.html "<div class=\"mermaid\">\n", .text "A-->B;", .html "</div>"], [], []⟩ :=
  ⟨fun _ _ _ _ => rfl, fun _ => rfl, fun _ => rfl, rfl⟩

/-- C2: refuted by the code — the claim (and the spec's error policy) says
`MarkdownParser::parse` always terminates normally, but on a document
containing an empty block quote (`>` alone, whose event stream is
`[Start(BlockQuote), End(BlockQuote)]`) the Callout extension calls
`parse_callout("")`, whose `words.next().unwrap()` panics.  The theorem
holds for every instantiation of the external services and options. -/
theorem c2_parse_panics_on_empty_blockquote (ext : Externals) (opts : ParseOptions) :
    parse ext opts [.start .blockQuote, .endTag .blockQuote] = none := rfl

/-- C3: the `Tasklist` extension implements exactly the claimed rewrite
(second conjunct: invoked on the buffered checkbox list, it replaces the
list's opening tag with `<ul class="checklist">`), but
`MarkdownParser::new` never registers it, so the pipeline leaves the
checkbox document `* [ ] A` / `* [x] B` completely untouched (first
conjunct) and no `checklist` class is ever produced. -/
theorem c3_checklist_extension_not_registered :
    parse extDemo ParseOptions.default
      [.start (.list none), .start .item, .taskListMarker false, .text "A", .endTag .item,
       .start .item, .taskListMarker true, .text "B", .endTag .item, .endTag (.list none)] =
      some ⟨[.start (.list none), .start .item, .taskListMarker false, .text "A", .endTag .item,
             .start .item, .taskListMarker true, .text "B", .endTag .item, .endTag (.list none)],
            [], []⟩
  ∧ tasklistProcessEvent
      [.start (.list none), .start .item, .taskListMarker false, .text "A", .endTag .item,
       .start .item, .taskListMarker true, .text "B", .endTag .item]
      (.endTag (.list none)) =
      some ([.html "<ul class=\"checklist\">", .start .item, .taskListMarker false, .text "A",
             .endTag .item, .start .item, .taskListMarker true, .text "B", .endTag .item],
            none, false) :=
  ⟨rfl, rfl⟩

/-- C4 counterexample: the claim says an inline `#/tab/<id>` link outside
any heading "is not treated as a tab declaration and opens no tab group".
On a document that is a single ordinary paragraph containing such a link
(no heading anywhere), the pipeline's buffer nevertheless contains the
opened `<div class="tabgroup">` group markup: the Tabs extension consults
no heading context. -/
theorem c4_tab_link_in_paragraph_opens_group :
    parse extDemo ParseOptions.default
      [.start .paragraph, .start (.link .inline "#/tab/a" ""), .text "T",
       .endTag (.link .inline "#/tab/a" ""), .endTag .paragraph] =
      some ⟨[.start .paragraph, .html "<div class=\"tabgroup\">",
             .html "<ul class=\"tab-list\" role=\"tablist\">", .html "</ul>",
             .html "<div class=\"tab-panel active\" data-tab-id=\"a\">", .text "T",
             .endTag (.link .inline "#/tab/a" ""), .endTag .paragraph,
             .html "</div>", .html "</div>"], [], []⟩ := rfl

/-- C4 (amended): the Tabs extension treats every inline link whose URL
starts with `#/tab/` as a tab declaration, regardless of whether it occurs
inside a heading — the surrounding buffer and the rest of the state are
not consulted — and opens a new group at the current buffer position when
none is open. -/
theorem c4_any_inline_tab_link_declares (st : TabsState) (events : List Event)
    (url title tid : String)
    (h1 : strStartsWith url "#/tab/" = true) (h2 : tabIdOf url = some tid)
    (h3 : st.currentTabgroup = none) :
    tabsProcessEvent st events (.start (.link .inline url title)) =
      some (⟨some ⟨events.length, []⟩, some ⟨tid, "", true⟩⟩, events,
            some [.event (.html "<div class=\"tabgroup\">"), .event (.html "<tabstrip/>"),
                  .event (.html (tabPanelHtml true tid))], true) := by
  simp only [tabsProcessEvent, h1, h2, h3]
  simp

/-- Witness for `c4_any_inline_tab_link_declares` at a concrete input. -/
theorem c4_any_inline_tab_link_declares_witness :
    tabsProcessEvent ⟨none, none⟩ [.start .paragraph] (.start (.link .inline "#/tab/x" "t")) =
      some (⟨some ⟨1, []⟩, some ⟨"x", "", true⟩⟩, [.start .paragraph],
            some [.event (.html "<div class=\"tabgroup\">"), .event (.html "<tabstrip/>"),
                  .event (.html (tabPanelHtml true "x"))], true) :=
  c4_any_inline_tab_link_declares ⟨none, none⟩ [.start .paragraph] "#/tab/x" "t" "x"
    rfl rfl rfl

/-- C5 counterexample: the claim says processing `End(Heading)` contributes
exactly one closing heading event.  On the document `# Hi` the final
buffer contains the closing heading event twice: the TableOfContents
extension pushes a copy in its output yet reports the event unhandled, so
the dispatcher appends the original again.  The buffer therefore does not
serialize to balanced events (one `<h1 id="hi">` opener, two closers). -/
theorem c5_heading_close_emitted_twice :
    parse extDemo ParseOptions.default
      [.start (.heading 1), .text "Hi", .endTag (.heading 1)] =
      some ⟨[.html "<h1 id=\"hi\">", .text "Hi", .endTag (.heading 1), .endTag (.heading 1)],
            [⟨"Hi", "hi", 1⟩], []⟩
  ∧ List.count (Event.endTag (.heading 1))
      [Event.html "<h1 id=\"hi\">", .text "Hi", .endTag (.heading 1), .endTag (.heading 1)] = 2 :=
  ⟨rfl, rfl⟩

/-- C5 (amended): the buffer is not balanced at every point.  (1) For a
non-tab heading (Tabs has no current tab) the dispatcher contributes two
closing heading events: the TableOfContents extension emits a copy of
`End(Heading)` in its output but returns `handled = false`, so the
dispatcher appends the original as well.  (2) An `End(Link)` is appended
to the buffer even when no link is being tracked, so when the matching
`Start(Link)` was consumed by the Tabs extension the buffer holds a lone
closing link event: concretely, after `# [Tab1](#/tab/a)` the buffer
contains one closing link event and no link opener at all. -/
theorem c5_buffer_not_balanced :
    (∀ (ext : Externals) (st : ParserState) (acc : Accums) (lvl : Nat) (h0 : Heading) (pos : Nat),
      st.tabs.currentTab = none →
      st.toc.currentHeading = some h0 →
      acc.events.reverse.findIdx? isStartHeading = some pos →
      processOne ext st acc (.endTag (.heading lvl)) =
        some ({ st with toc := ⟨none⟩ },
          ⟨(acc.events.set (acc.events.length - 1 - pos)
              (.html (headingOpenHtml h0.level (slugify h0.title))))
            ++ [.endTag (.heading lvl), .endTag (.heading lvl)],
           acc.links,
           acc.headings ++ [⟨h0.title, slugify h0.title, h0.level⟩]⟩))
  ∧ (∀ (ext : Externals) (st : ParserState) (acc : Accums) (lt : LinkType) (url title : String),
      st.linkRewriter.currentLink = none →
      processOne ext st acc (.endTag (.link lt url title)) =
        some (st, ⟨acc.events ++ [.endTag (.link lt url title)], acc.links, acc.headings⟩))
  ∧ parse extDemo ParseOptions.default
      [.start (.heading 1), .start (.link .inline "#/tab/a" ""), .text "Tab1",
       .endTag (.link .inline "#/tab/a" "")] =
      some ⟨[.start (.heading 1), .html "<div class=\"tabgroup\">",
             .html "<ul class=\"tab-list\" role=\"tablist\">", .html "</ul>",
             .html "<div class=\"tab-panel active\" data-tab-id=\"a\">", .text "Tab1",
             .endTag (.link .inline "#/tab/a" ""), .html "</div>", .html "</div>"], [], []⟩
  ∧ List.count (Event.endTag (.link .inline "#/tab/a" ""))
      [Event.start (.heading 1), .html "<div class=\"tabgroup\">",
       .html "<ul class=\"tab-list\" role=\"tablist\">", .html "</ul>",
       .html "<div class=\"tab-panel active\" data-tab-id=\"a\">", .text "Tab1",
       .endTag (.link .inline "#/tab/a" ""), .html "</div>", .html "</div>"] = 1
  ∧ List.countP (fun e => match e with | Event.start (.link _ _ _) => true | _ => false)
      [Event.start (.heading 1), .html "<div class=\"tabgroup\">",
       .html "<ul class=\"tab-list\" role=\"tablist\">", .html "</ul>",
       .html "<div class=\"tab-panel active\" data-tab-id=\"a\">", .text "Tab1",
       .endTag (.link .inline "#/tab/a" ""), .html "</div>", .html "</div>"] = 0 := by
  refine ⟨?_, ?_, rfl, rfl, rfl⟩
  · intro ext st acc lvl h0 pos htab htoc hfind
    obtain ⟨⟨tg, tb⟩, lr, ⟨ch⟩⟩ := st
    simp only at htab htoc
    subst htab
    subst htoc
    cases tg with
    | none =>
      simp only [processOne, textProcess, extensionsOf, runExtensions, calloutExt,
        calloutProcessEvent, mermaidExt, mermaidProcessEvent, mathExt, mathProcessEvent,
        tabsExt, tabsProcessEvent, codeblockExt, codeblockProcessEvent, linkRewriterExt,
        linkRewriterProcessEvent, tocExt, tocProcessEvent, handleOutput, hfind,
        Option.map_some']
      simp [List.append_assoc]
    | some g =>
      simp only [processOne, textProcess, extensionsOf, runExtensions, calloutExt,
        calloutProcessEvent, mermaidExt, mermaidProcessEvent, mathExt, mathProcessEvent,
        tabsExt, tabsProcessEvent, codeblockExt, codeblockProcessEvent, linkRewriterExt,
        linkRewriterProcessEvent, tocExt, tocProcessEvent, handleOutput, hfind,
        Option.map_some']
      simp [List.append_assoc]
  · intro ext st acc lt url title hlink
    obtain ⟨tbs, ⟨root, rules, params, cl⟩, tc⟩ := st
    simp only at hlink
    subst hlink
    rfl

/-- Witness for `c5_buffer_not_balanced` at concrete inputs: a heading close
in a fresh one-heading state contributes two closing events, and a link
close with no tracked link appends the lone closing event. -/
theorem c5_buffer_not_balanced_witness :
    processOne extDemo ⟨⟨none, none⟩, ⟨"/", [], [], none⟩, ⟨some ⟨"Hi", "", 1⟩⟩⟩
      ⟨[.start (.heading 1), .text "Hi"], [], []⟩ (.endTag (.heading 1)) =
      some (⟨⟨none, none⟩, ⟨"/", [], [], none⟩, ⟨none⟩⟩,
        ⟨[.html "<h1 id=\"hi\">", .text "Hi", .endTag (.heading 1), .endTag (.heading 1)],
         [], [⟨"Hi", "hi", 1⟩]⟩)
  ∧ processOne extDemo ⟨⟨none, none⟩, ⟨"/", [], [], none⟩, ⟨none⟩⟩
      ⟨[.html "x"], [], []⟩ (.endTag (.link .inline "/a" "")) =
      some (⟨⟨none, none⟩, ⟨"/", [], [], none⟩, ⟨none⟩⟩,
        ⟨[.html "x", .endTag (.link .inline "/a" "")], [], []⟩) := by
  constructor
  · have h := c5_buffer_not_balanced.1 extDemo
      ⟨⟨none, none⟩, ⟨"/", [], [], none⟩, ⟨some ⟨"Hi", "", 1⟩⟩⟩
      ⟨[.start (.heading 1), .text "Hi"], [], []⟩ 1 ⟨"Hi", "", 1⟩ 1 rfl rfl rfl
    simpa using h
  · exact c5_buffer_not_balanced.2.1 extDemo
      ⟨⟨none, none⟩, ⟨"/", [], [], none⟩, ⟨none⟩⟩ ⟨[.html "x"], [], []⟩ .inline "/a" "" rfl

/-- C10: for a tab-declaring heading — an `End(Heading)` dispatched while a
tab group and a current tab are open — the Tabs extension pushes the
completed tab, blanks the heading's buffered markup and reports the event
handled, so the dispatch chain stops before the TableOfContents extension:
no `Heading` record is emitted (the headings accumulator is unchanged) and
the TableOfContents state is untouched. -/
theorem c10_tab_heading_emits_no_heading_record (ext : Externals) (st : ParserState)
    (acc : Accums) (lvl : Nat) (g : TabGroup) (t : Tab)
    (h1 : st.tabs.currentTabgroup = some g) (h2 : st.tabs.currentTab = some t) :
    processOne ext st acc (.endTag (.heading lvl)) =
      some ({ st with tabs := ⟨some ⟨g.index, g.tabs ++ [t]⟩, none⟩ },
            ⟨(tabsBlankBack acc.events.reverse).reverse, acc.links, acc.headings⟩) := by
  obtain ⟨⟨tg, tb⟩, lr, tc⟩ := st
  simp only at h1 h2
  subst h1
  subst h2
  rfl

/-- Witness for `c10_tab_heading_emits_no_heading_record`: on the concrete
state reached inside `# [Tab1](#/tab/a)`, the heading close leaves the
headings accumulator empty. -/
theorem c10_tab_heading_emits_no_heading_record_witness :
    processOne extDemo
      ⟨⟨some ⟨0, []⟩, some ⟨"a", "Tab1", true⟩⟩, ⟨"/", [], [], none⟩, ⟨some ⟨"Tab1", "", 1⟩⟩⟩
      ⟨[.start (.heading 1), .html "<div class=\"tabgroup\">", .html "<tabstrip/>",
        .html "<div class=\"tab-panel active\" data-tab-id=\"a\">", .text "Tab1",
        .endTag (.link .inline "#/tab/a" "")], [], []⟩
      (.endTag (.heading 1)) =
      some (⟨⟨some ⟨0, [⟨"a", "Tab1", true⟩]⟩, none⟩, ⟨"/", [], [], none⟩, ⟨some ⟨"Tab1", "", 1⟩⟩⟩,
        ⟨[.html "", .html "<div class=\"tabgroup\">", .html "<tabstrip/>",
          .html "<div class=\"tab-panel active\" data-tab-id=\"a\">", .html "", .html ""],
         [], []⟩) := by
  have h := c10_tab_heading_emits_no_heading_record extDemo
    ⟨⟨some ⟨0, []⟩, some ⟨"a", "Tab1", true⟩⟩, ⟨"/", [], [], none⟩, ⟨some ⟨"Tab1", "", 1⟩⟩⟩
    ⟨[.start (.heading 1), .html "<div class=\"tabgroup\">", .html "<tabstrip/>",
      .html "<div class=\"tab-panel active\" data-tab-id=\"a\">", .text "Tab1",
      .endTag (.link .inline "#/tab/a" "")], [], []⟩ 1 ⟨0, []⟩ ⟨"a", "Tab1", true⟩ rfl rfl
  simpa using h

/-- C8 counterexample: heading anchors are not injective for distinct
plain-ASCII titles within one document.  The titles `"My Heading"` and
`"my heading"` are distinct, yet both receive the anchor `"my-heading"`
(the deterministic part of the claim — `"My Heading"` slugs to
`"my-heading"` and the heading opener is rewritten to carry the id — is
visible in the same run). -/
theorem c8_anchor_collision :
    parse extDemo ParseOptions.default
      [.start (.heading 1), .text "My Heading", .endTag (.heading 1),
       .start (.heading 2), .text "my heading", .endTag (.heading 2)] =
      some ⟨[.html "<h1 id=\"my-heading\">", .text "My Heading",
             .endTag (.heading 1), .endTag (.heading 1),
             .html "<h2 id=\"my-heading\">", .text "my heading",
             .endTag (.heading 2), .endTag (.heading 2)],
            [⟨"My Heading", "my-heading", 1⟩, ⟨"my heading", "my-heading", 2⟩], []⟩
  ∧ ("My Heading" : String) ≠ "my heading"
  ∧ slugify "My Heading" = slugify "my heading" :=
  ⟨rfl, by decide, rfl⟩

/-- C8 (amended): the anchor of a heading is computed deterministically as
the slug of the Text/Code content accumulated between `Start(Heading)` and
`End(Heading)` (`"My Heading"` slugs to `"my-heading"`), and the buffered
heading-open marker is rewritten to carry `id="<anchor>"`; but the
title-to-anchor map is not injective on distinct plain-ASCII titles —
titles differing only in case or separators collide. -/
theorem c8_anchor_deterministic_not_injective :
    (∀ (st : TocState) (events : List Event) (lvl : Nat) (h0 : Heading) (pos : Nat),
      st.currentHeading = some h0 →
      events.reverse.findIdx? isStartHeading = some pos →
      tocProcessEvent st events (.endTag (.heading lvl)) =
        some (⟨none⟩,
          events.set (events.length - 1 - pos)
            (.html (headingOpenHtml h0.level (slugify h0.title))),
          some [.heading ⟨h0.title, slugify h0.title, h0.level⟩, .event (.endTag (.heading lvl))],
          false))
  ∧ (∀ (st : TocState) (events : List Event) (s : String) (h0 : Heading),
      st.currentHeading = some h0 →
      tocProcessEvent st events (.text s) =
        some (⟨some ⟨h0.title ++ s, h0.anchor, h0.level⟩⟩, events, none, false))
  ∧ (∀ (st : TocState) (events : List Event) (s : String) (h0 : Heading),
      st.currentHeading = some h0 →
      tocProcessEvent st events (.code s) =
        some (⟨some ⟨h0.title ++ s, h0.anchor, h0.level⟩⟩, events, none, false))
  ∧ slugify "My Heading" = "my-heading"
  ∧ slugify "My Heading" = slugify "my heading" := by
  refine ⟨?_, ?_, ?_, rfl, rfl⟩
  · intro st events lvl h0 pos hcur hfind
    obtain ⟨ch⟩ := st
    simp only at hcur
    subst hcur
    simp only [tocProcessEvent, hfind]
  · intro st events s h0 hcur
    obtain ⟨ch⟩ := st
    simp only at hcur
    subst hcur
    rfl
  · intro st events s h0 hcur
    obtain ⟨ch⟩ := st
    simp only at hcur
    subst hcur
    rfl

/-- Witness for `c8_anchor_deterministic_not_injective` at a concrete
input. -/
theorem c8_anchor_deterministic_not_injective_witness :
    tocProcessEvent ⟨some ⟨"My Heading", "", 1⟩⟩ [.start (.heading 1), .text "My Heading"]
      (.endTag (.heading 1)) =
      some (⟨none⟩,
        [.html "<h1 id=\"my-heading\">", .text "My Heading"],
        some [.heading ⟨"My Heading", "my-heading", 1⟩, .event (.endTag (.heading 1))],
        false) := by
  have h := c8_anchor_deterministic_not_injective.1 ⟨some ⟨"My Heading", "", 1⟩⟩
    [.start (.heading 1), .text "My Heading"] 1 ⟨"My Heading", "", 1⟩ 1 rfl rfl
  simpa using h

/-- C6: a `Link` record is created only for inline-style links: non-inline
starts rewrite the URL but never touch the tracked link (a).  For inline
starts the record's URL is classified from the final (rewritten,
parameter-appended) URL string: `Remote` on parse success (b), `Local` on
`EmptyHost`/`RelativeUrlWithoutBase` (c), and the link is discarded on any
other parse error (d).  The record is emitted when `End(Link)` is seen (e),
the pipeline's links accumulator is append-only (f) — so the `links` list
preserves document order — and the two-link example document yields the
records in order (g). -/
theorem c6_link_records :
    (∀ (p : String → UrlOutcome) (st : LinkRewriterState) (events : List Event)
        (lt : LinkType) (url title : String), lt ≠ LinkType.inline →
      linkRewriterProcessEvent p st events (.start (.link lt url title)) =
        some (st, events,
          some [.event (.start (.link lt (linkEffectiveUrl p st url) title))], true))
  ∧ (∀ (p : String → UrlOutcome) (st : LinkRewriterState) (events : List Event)
        (url title : String) (b : Bool),
      p (linkEffectiveUrl p st url) = .ok b →
      linkRewriterProcessEvent p st events (.start (.link .inline url title)) =
        some ({ st with currentLink := some ⟨title, .remote (linkEffectiveUrl p st url)⟩ },
          events, some [.event (.start (.link .inline (linkEffectiveUrl p st url) title))], true))
  ∧ (∀ (p : String → UrlOutcome) (st : LinkRewriterState) (events : List Event)
        (url title : String),
      (p (linkEffectiveUrl p st url) = .errEmptyHost ∨
        p (linkEffectiveUrl p st url) = .errRelativeNoBase) →
      linkRewriterProcessEvent p st events (.start (.link .inline url title)) =
        some ({ st with currentLink := some ⟨title, .local (linkEffectiveUrl p st url)⟩ },
          events, some [.event (.start (.link .inline (linkEffectiveUrl p st url) title))], true))
  ∧ (∀ (p : String → UrlOutcome) (st : LinkRewriterState) (events : List Event)
        (url title : String),
      p (linkEffectiveUrl p st url) = .errOther →
      linkRewriterProcessEvent p st events (.start (.link .inline url title)) =
        some (st, events,
          some [.event (.start (.link .inline (linkEffectiveUrl p st url) title))], true))
  ∧ (∀ (p : String → UrlOutcome) (st : LinkRewriterState) (events : List Event)
        (lt : LinkType) (url title : String) (l : Link),
      st.currentLink = some l →
      linkRewriterProcessEvent p st events (.endTag (.link lt url title)) =
        some ({ st with currentLink := none }, events,
          some [.link l, .event (.endTag (.link lt url title))], true))
  ∧ (∀ (ext : Externals) (st : ParserState) (acc : Accums) (ev : Event)
        (st' : ParserState) (acc' : Accums),
      processOne ext st acc ev = some (st', acc') → ∃ tl, acc'.links = acc.links ++ tl)
  ∧ parse extDemo ParseOptions.default
      [.start .paragraph,
       .start (.link .inline "/bar" ""), .text "foo", .endTag (.link .inline "/bar" ""),
       .start (.link .inline "https://x.com" ""), .text "Example",
       .endTag (.link .inline "https://x.com" ""),
       .endTag .paragraph] =
      some ⟨[.start .paragraph,
             .start (.link .inline "/bar" ""), .text "foo", .endTag (.link .inline "/bar" ""),
             .start (.link .inline "https://x.com" ""), .text "Example",
             .endTag (.link .inline "https://x.com" ""),
             .endTag .paragraph],
            [],
            [⟨"foo", .local "/bar"⟩, ⟨"Example", .remote "https://x.com"⟩]⟩ := by
  refine ⟨?_, ?_, ?_, ?_, ?_, ?_, rfl⟩
  · intro p st events lt url title hlt
    simp only [linkRewriterProcessEvent, if_neg hlt]
  · intro p st events url title b hp
    simp [linkRewriterProcessEvent, classifyUrl, hp]
  · intro p st events url title hp
    cases hp with
    | inl h => simp [linkRewriterProcessEvent, classifyUrl, h]
    | inr h => simp [linkRewriterProcessEvent, classifyUrl, h]
  · intro p st events url title hp
    simp [linkRewriterProcessEvent, classifyUrl, hp]
  · intro p st events lt url title l hcur
    simp only [linkRewriterProcessEvent, hcur]
  · intro ext st acc ev st' acc' h
    exact (processOne_append ext st acc ev st' acc' h).1

/-- Witness for `c6_link_records` at concrete inputs: a remote
classification, a local classification, and the record emission at
`End(Link)`. -/
theorem c6_link_records_witness :
    linkRewriterProcessEvent urlParseDemo ⟨"/", [], [], none⟩ []
      (.start (.link .inline "https://x.com" "")) =
      some (⟨"/", [], [], some ⟨"", .remote "https://x.com"⟩⟩, [],
        some [.event (.start (.link .inline "https://x.com" ""))], true)
  ∧ linkRewriterProcessEvent urlParseDemo ⟨"/", [], [], none⟩ []
      (.start (.link .inline "/bar" "")) =
      some (⟨"/", [], [], some ⟨"", .local "/bar"⟩⟩, [],
        some [.event (.start (.link .inline "/bar" ""))], true)
  ∧ linkRewriterProcessEvent urlParseDemo ⟨"/", [], [], some ⟨"foo", .local "/bar"⟩⟩ []
      (.endTag (.link .inline "/bar" "")) =
      some (⟨"/", [], [], none⟩, [],
        some [.link ⟨"foo", .local "/bar"⟩, .event (.endTag (.link .inline "/bar" ""))], true) := by
  refine ⟨?_, ?_, ?_⟩
  · have h := c6_link_records.2.1 urlParseDemo ⟨"/", [], [], none⟩ []
      "https://x.com" "" true rfl
    simpa using h
  · have h := c6_link_records.2.2.1 urlParseDemo ⟨"/", [], [], none⟩ []
      "/bar" "" (Or.inr rfl)
    simpa using h
  · have h := c6_link_records.2.2.2.2.1 urlParseDemo ⟨"/", [], [], some ⟨"foo", .local "/bar"⟩⟩
      [] .inline "/bar" "" ⟨"foo", .local "/bar"⟩ rfl
    simpa using h

/-- C7 counterexample: the claim says the query parameters are appended
"for images as well as links".  With `url_params = [("a","1")]` and the
local-domain image URL `x.png`, the `Start(Image)` branch emits the URL
unchanged — `LinkRewriter::process_event` computes only `rewrite_link` for
images and never appends parameters (the last two conjuncts show the URL
is local-domain and what the appended URL would have been). -/
theorem c7_image_params_not_appended :
    linkRewriterProcessEvent urlParseDemo ⟨"/", [], [("a", "1")], none⟩ []
      (.start (.image .inline "x.png" "")) =
      some (⟨"/", [], [("a", "1")], none⟩, [],
        some [.event (.start (.image .inline "x.png" ""))], true)
  ∧ isInLocalDomain urlParseDemo "x.png" = true
  ∧ appendParameters "x.png" [("a", "1")] = "x.png?a=1"
  ∧ ("x.png" : String) ≠ "x.png?a=1" :=
  ⟨rfl, rfl, rfl, by decide⟩

/-- C7 (amended): for `Start(Link)` the effective URL is computed by
(a) exact-match substitution via the rewrite rules; else (b) prefixing
absolute-path URLs with the trailing-slash-trimmed `url_root`; else
(c) leaving the URL untouched; then, when `url_params` is non-empty and
the rewritten URL is in the local domain, appending
`?key=value&key2=value2...` in the given order.  For `Start(Image)` only
steps (a)-(c) apply: parameters are never appended to image URLs. -/
theorem c7_effective_url_rules :
    (∀ (st : LinkRewriterState) (url m : String),
      st.linkRewriteRules.lookup url = some m → rewriteLink st url = m)
  ∧ (∀ (st : LinkRewriterState) (url : String),
      st.linkRewriteRules.lookup url = none → strStartsWith url "/" = true →
      rewriteLink st url = trimEndSlashes st.urlRoot ++ url)
  ∧ (∀ (st : LinkRewriterState) (url : String),
      st.linkRewriteRules.lookup url = none → strStartsWith url "/" = false →
      rewriteLink st url = url)
  ∧ (∀ (p : String → UrlOutcome) (st : LinkRewriterState) (url : String),
      st.urlParams ≠ [] → isInLocalDomain p (rewriteLink st url) = true →
      linkEffectiveUrl p st url = appendParameters (rewriteLink st url) st.urlParams)
  ∧ (∀ (p : String → UrlOutcome) (st : LinkRewriterState) (url : String),
      isInLocalDomain p (rewriteLink st url) = false →
      linkEffectiveUrl p st url = rewriteLink st url)
  ∧ (∀ (p : String → UrlOutcome) (st : LinkRewriterState) (url : String),
      st.urlParams = [] → linkEffectiveUrl p st url = rewriteLink st url)
  ∧ (∀ (p : String → UrlOutcome) (st : LinkRewriterState) (events : List Event)
        (lt : LinkType) (url title : String),
      ∃ st', linkRewriterProcessEvent p st events (.start (.link lt url title)) =
        some (st', events,
          some [.event (.start (.link lt (linkEffectiveUrl p st url) title))], true))
  ∧ (∀ (p : String → UrlOutcome) (st : LinkRewriterState) (events : List Event)
        (lt : LinkType) (url title : String),
      linkRewriterProcessEvent p st events (.start (.image lt url title)) =
        some (st, events,
          some [.event (.start (.image lt (rewriteLink st url) title))], true))
  ∧ rewriteLink ⟨"/other/root", [], [], none⟩ "/foo/bar" = "/other/root/foo/bar"
  ∧ rewriteLink ⟨"/other/root", [], [], none⟩ "relative/link" = "relative/link"
  ∧ rewriteLink ⟨"/other/root", [], [], none⟩ "https://www.google.com" = "https://www.google.com"
  ∧ rewriteLink ⟨"/", [("/assets/cat.jpg", "https://example.com/cat.jpg")], [], none⟩
      "/assets/cat.jpg" = "https://example.com/cat.jpg"
  ∧ appendParameters "rel" [("a", "1"), ("b", "2")] = "rel?a=1&b=2" := by
  refine ⟨?_, ?_, ?_, ?_, ?_, ?_, ?_, ?_, rfl, rfl, rfl, rfl, rfl⟩
  · intro st url m h
    simp [rewriteLink, h]
  · intro st url h1 h2
    simp [rewriteLink, h1, h2]
  · intro st url h1 h2
    simp [rewriteLink, h1, h2]
  · intro p st url h1 h2
    have hne : st.urlParams.isEmpty = false := by
      simpa [List.isEmpty_iff] using h1
    simp [linkEffectiveUrl, hne, h2]
  · intro p st url h2
    simp [linkEffectiveUrl, h2]
  · intro p st url h1
    simp [linkEffectiveUrl, h1]
  · intro p st events lt url title
    exact ⟨_, rfl⟩
  · intro p st events lt url title
    rfl

/-- Witness for `c7_effective_url_rules` at concrete inputs: the root
prefix on an absolute-path URL, the parameter appension on a local URL,
and the untouched external URL. -/
theorem c7_effective_url_rules_witness :
    rewriteLink ⟨"/other/root", [], [("a", "1")], none⟩ "/foo/bar" = "/other/root/foo/bar"
  ∧ linkEffectiveUrl urlParseDemo ⟨"/", [], [("a", "1"), ("b", "2")], none⟩ "rel" =
      appendParameters "rel" [("a", "1"), ("b", "2")]
  ∧ linkEffectiveUrl urlParseDemo ⟨"/", [], [("a", "1")], none⟩ "http://ext.com" =
      rewriteLink ⟨"/", [], [("a", "1")], none⟩ "http://ext.com" := by
  refine ⟨?_, ?_, ?_⟩
  · exact c7_effective_url_rules.2.1 ⟨"/other/root", [], [("a", "1")], none⟩ "/foo/bar" rfl rfl
  · exact c7_effective_url_rules.2.2.2.1 urlParseDemo ⟨"/", [], [("a", "1"), ("b", "2")], none⟩
      "rel" (by decide) rfl
  · exact c7_effective_url_rules.2.2.2.2.1 urlParseDemo ⟨"/", [], [("a", "1")], none⟩
      "http://ext.com" rfl
